import Mathlib

/-!
Verification of the generafrica repository: a browser client for a realtime
music-generation service.  We give a shallow embedding of the three core
modules the specification describes — the `LyriaClient` session protocol
(`src/lyria-client.js`), the `AudioPlayer` streaming scheduler
(`src/unnamed/part_000`) and the `MidiManager` mapping store
(`src/unnamed/part_001`) — and prove or refute the spec's claims about them.

Numbers are modelled with `ℚ` (the source uses JS doubles; all quantities of
interest here are exact decimal fractions).  JS `undefined`-able fields are
modelled with `Option`.  Side-effecting callback invocations and socket
writes are modelled as ghost event logs threaded through the state.
-/

namespace Lyria

/-- A partial generation-config update, the argument of
`setMusicGenerationConfig`.  `none` models an `undefined` (absent) field. -/
structure PartialConfig where
  bpm : Option ℚ := none
  density : Option ℚ := none
  brightness : Option ℚ := none
  scale : Option String := none
  muteDrums : Option Bool := none
  muteBass : Option Bool := none
  onlyBassAndDrums : Option Bool := none
  mode : Option String := none
deriving DecidableEq, Repr

/-- The retained full config `this.currentConfig`.  The constructor gives it
no `mode` field; a spread can add one later, hence `mode : Option String`. -/
structure FullConfig where
  bpm : ℚ
  density : ℚ
  brightness : ℚ
  scale : String
  muteDrums : Bool
  muteBass : Bool
  onlyBassAndDrums : Bool
  mode : Option String
deriving DecidableEq, Repr

/-- The constructor's initial `this.currentConfig`. -/
def initialConfig : FullConfig :=
  { bpm := 120, density := 1/2, brightness := 1/2, scale := "SCALE_UNSPECIFIED",
    muteDrums := false, muteBass := false, onlyBassAndDrums := false, mode := none }

/-- JS object spread `{...currentConfig, ...config}`: a field present in the
update overwrites the retained one, an absent field is kept. -/
def mergeConfig (cur : FullConfig) (c : PartialConfig) : FullConfig :=
  { bpm := c.bpm.getD cur.bpm,
    density := c.density.getD cur.density,
    brightness := c.brightness.getD cur.brightness,
    scale := c.scale.getD cur.scale,
    muteDrums := c.muteDrums.getD cur.muteDrums,
    muteBass := c.muteBass.getD cur.muteBass,
    onlyBassAndDrums := c.onlyBassAndDrums.getD cur.onlyBassAndDrums,
    mode := match c.mode with
      | some m => some m
      | none => cur.mode }

/-- The wire shape of a `musicGenerationConfig` message (the `configObj`
built by `setMusicGenerationConfig`); absent fields are `none`. -/
structure ConfigMessage where
  bpm : Option ℤ := none
  density : Option ℚ := none
  brightness : Option ℚ := none
  scale : Option String := none
  muteDrums : Option Bool := none
  muteBass : Option Bool := none
  onlyBassAndDrums : Option Bool := none
  musicGenerationMode : Option String := none
deriving DecidableEq, Repr

/-- A normalized weighted prompt as put on the wire. -/
structure WeightedPrompt where
  text : String
  weight : ℚ
deriving DecidableEq, Repr

/-- The outbound wire messages the client can produce. -/
inductive OutboundMessage
  | setup (model : String)
  | clientContent (weightedPrompts : List WeightedPrompt)
  | musicGenerationConfig (config : ConfigMessage)
  | playbackControl (token : String)
deriving DecidableEq, Repr

/-- A prompt argument to `setWeightedPrompts`: either a bare string or an
object with a text and an optional explicit weight. -/
inductive PromptInput
  | str (text : String)
  | obj (text : String) (weight : Option ℚ)
deriving DecidableEq, Repr

/-- Client state.  `wsOpen` models `this.ws && this.ws.readyState === OPEN`;
`sentLog` is the ghost log of messages actually written to the socket, in
transmission order. -/
structure ClientState where
  wsOpen : Bool
  isConnected : Bool
  isPlaying : Bool
  isSetupComplete : Bool
  messageQueue : List OutboundMessage
  currentConfig : FullConfig
  currentPrompts : List PromptInput
  sentLog : List OutboundMessage
deriving DecidableEq, Repr

/-- `send(message)`: transmit when the socket is open, otherwise enqueue;
the returned `Bool` is the source's success indicator.  The source checks
only `this.ws && this.ws.readyState === WebSocket.OPEN`. -/
def send (s : ClientState) (m : OutboundMessage) : ClientState × Bool :=
  if s.wsOpen then ({ s with sentLog := s.sentLog ++ [m] }, true)
  else ({ s with messageQueue := s.messageQueue ++ [m] }, false)

/-- One-iteration-at-a-time model of the `processQueue` while loop: shift
the head of the queue and `send` it.  The loop is fuel-bounded; with the
fuel used by `processQueue` this is exact whenever the socket is open (each
iteration then consumes one queued message).  When the socket is closed the
JS loop never terminates, since `send` pushes the shifted message back. -/
def processQueueAux : Nat → ClientState → ClientState
  | 0, s => s
  | fuel + 1, s =>
    match s.messageQueue with
    | [] => s
    | m :: rest => processQueueAux fuel (send { s with messageQueue := rest } m).1

/-- `processQueue()`. -/
def processQueue (s : ClientState) : ClientState :=
  processQueueAux s.messageQueue.length s

/-- A callback invocation observable by the embedding application. -/
inductive Event
  | audioChunk (data : String)
  | stateChange (state : String)
  | errorNote (message : String)
deriving DecidableEq, Repr

/-- One element of `serverContent.audioChunks`; `data` carries the base64
payload (the byte decoding is value-irrelevant to every claim). -/
structure AudioChunk where
  data : Option String
deriving DecidableEq, Repr

/-- An inbound message after JSON parsing.  Every field is independently
optional.  `errorField` models `message.error`, whose inner option is
`message.error.message`. -/
structure InboundMessage where
  setupComplete : Option Bool := none
  audioChunks : Option (List AudioChunk) := none
  generationState : Option String := none
  filteredPrompt : Option String := none
  warning : Option String := none
  errorField : Option (Option String) := none
deriving DecidableEq, Repr

/-- The audio-chunk dispatch block: one `onAudioChunk` call per chunk whose
`data` field is truthy (present and non-empty). -/
def chunkEvents : Option (List AudioChunk) → List Event
  | some chunks => chunks.filterMap fun c =>
      match c.data with
      | some d => if d = "" then none else some (Event.audioChunk d)
      | none => none
  | none => []

/-- The generation-state dispatch block: new `isPlaying` flag and the state
callback it fires. -/
def stateEvents (gs : Option String) (isPlaying : Bool) : Bool × List Event :=
  match gs with
  | some st =>
    if st = "PLAYING" then (true, [Event.stateChange "playing"])
    else if st = "PAUSED" then (false, [Event.stateChange "paused"])
    else if st = "STOPPED" then (false, [Event.stateChange "stopped"])
    else (isPlaying, [])
  | none => (isPlaying, [])

/-- The filtered-prompt dispatch block. -/
def filteredPromptEvents : Option String → List Event
  | some _ => [Event.errorNote "Prompt was filtered by safety system"]
  | none => []

/-- The server-error dispatch block: `message.error.message || 'Server error'`
(an empty message string is falsy). -/
def serverErrorEvents : Option (Option String) → List Event
  | some msg => [Event.errorNote (match msg with
      | some t => if t = "" then "Server error" else t
      | none => "Server error")]
  | none => []

/-- `handleMessage`: a message with `setupComplete` marks the handshake done,
fires the `connected` state change, flushes the queue and RETURNS — the
remaining blocks run only for messages without `setupComplete`. -/
def handleMessage (s : ClientState) (m : InboundMessage) : ClientState × List Event :=
  if m.setupComplete.isSome then
    (processQueue { s with isSetupComplete := true }, [Event.stateChange "connected"])
  else
    let se := stateEvents m.generationState s.isPlaying
    ({ s with isPlaying := se.1 },
     chunkEvents m.audioChunks ++ se.2 ++
       filteredPromptEvents m.filteredPrompt ++ serverErrorEvents m.errorField)

/-- JS `Math.round`: round half toward positive infinity. -/
def jsRound (q : ℚ) : ℤ := ⌊q + 1/2⌋

/-- `Math.max(0, Math.min(1, x))`. -/
def clamp01 (q : ℚ) : ℚ := max 0 (min 1 q)

/-- The `configObj` that `setMusicGenerationConfig` puts on the wire: each
field is emitted only when present in the PARTIAL update argument. -/
def buildConfigMessage (config : PartialConfig) : ConfigMessage :=
  { bpm := config.bpm.map jsRound,
    density := config.density.map clamp01,
    brightness := config.brightness.map clamp01,
    scale := config.scale,
    muteDrums := config.muteDrums,
    muteBass := config.muteBass,
    onlyBassAndDrums := config.onlyBassAndDrums,
    musicGenerationMode := config.mode }

/-- `setMusicGenerationConfig(config)`: merge into the retained config, then
send the message built from the partial argument. -/
def setMusicGenerationConfig (s : ClientState) (config : PartialConfig) :
    ClientState × Bool :=
  let s1 := { s with currentConfig := mergeConfig s.currentConfig config }
  send s1 (OutboundMessage.musicGenerationConfig (buildConfigMessage config))

/-- Prompt normalization `{text, weight: typeof p === 'string' ? 1.0 :
(p.weight || 1.0)}`; a numeric weight 0 is falsy in JS. -/
def normalizePrompt : PromptInput → WeightedPrompt
  | .str t => { text := t, weight := 1 }
  | .obj t w =>
    { text := t,
      weight := (match w with
        | some x => if x = 0 then 1 else x
        | none => 1) }

/-- `setWeightedPrompts(prompts)` (the array case; a lone prompt is wrapped
into a singleton array by the source before this point). -/
def setWeightedPrompts (s : ClientState) (prompts : List PromptInput) :
    ClientState × Bool :=
  let s1 := { s with currentPrompts := prompts }
  send s1 (OutboundMessage.clientContent (prompts.map normalizePrompt))

/-- A connected, handshake-complete client with an empty queue, used as the
concrete base state of counterexamples and witnesses. -/
def readyClient : ClientState :=
  { wsOpen := true, isConnected := true, isPlaying := false, isSetupComplete := true,
    messageQueue := [], currentConfig := initialConfig, currentPrompts := [],
    sentLog := [] }

/-- A concrete pre-handshake client with two queued transport messages. -/
def queuedClient : ClientState :=
  { readyClient with
      isSetupComplete := false,
      messageQueue := [OutboundMessage.playbackControl "PLAY",
                       OutboundMessage.playbackControl "PAUSE"] }

end Lyria

namespace Player

/-- A scheduled playback segment.  The source tracks `{source, endTime}`;
`startTime` additionally records the time passed to `source.start`, needed
to state the timeline claims. -/
structure Segment where
  startTime : ℚ
  endTime : ℚ
deriving DecidableEq, Repr

/-- A gain-automation event scheduled on `gainNode.gain`. -/
inductive GainEvent
  | setValue (value : ℚ) (time : ℚ)
  | linearRampTo (value : ℚ) (time : ℚ)
deriving DecidableEq, Repr

/-- The clock time of a gain-automation event. -/
def GainEvent.time : GainEvent → ℚ
  | .setValue _ t => t
  | .linearRampTo _ t => t

/-- A pending `setTimeout` fade-teardown callback in the host runtime. -/
structure StopTimer where
  id : Nat
  fireAt : ℚ
deriving DecidableEq, Repr

/-- `AudioPlayer` state.  `initialized` models `this.audioContext` and
`this.gainNode` being present; `gainValue` is the last value explicitly set
on the gain parameter; `gainEvents` is its not-yet-cancelled automation;
`stopTimeoutHandle` is `this._stopTimeout`; `liveTimers` are the pending
teardown callbacks in the host runtime (overwriting the handle does NOT
remove a pending callback); `released` is the ghost list of segments that
have been force-stopped (`source.stop()`). -/
structure PlayerState where
  initialized : Bool
  isStopping : Bool
  nextStartTime : ℚ
  scheduledBuffers : List Segment
  gainValue : ℚ
  gainEvents : List GainEvent
  stopTimeoutHandle : Option Nat
  liveTimers : List StopTimer
  nextTimerId : Nat
  released : List Segment
deriving DecidableEq, Repr

/-- The fixed lead-in added when scheduling after a stall: 0.05 s = 50 ms. -/
def leadIn : ℚ := 1/20

/-- `cleanupBuffers(currentTime)`: drop (and disconnect) every tracked
segment whose `endTime < currentTime`. -/
def cleanupBuffers (buffers : List Segment) (currentTime : ℚ) : List Segment :=
  buffers.filter fun item => !decide (item.endTime < currentTime)

/-- `scheduleBuffer(audioBuffer)`: reset `nextStartTime` to `now + leadIn`
when it has fallen behind the clock, start the source at `nextStartTime`,
advance it by the buffer's duration, record the segment, prune.  Also
returns the segment just scheduled. -/
def scheduleBuffer (s : PlayerState) (bufDuration : ℚ) (currentTime : ℚ) :
    PlayerState × Segment :=
  let nst := if s.nextStartTime < currentTime then currentTime + leadIn
             else s.nextStartTime
  let seg : Segment := { startTime := nst, endTime := nst + bufDuration }
  ({ s with nextStartTime := nst + bufDuration,
            scheduledBuffers := cleanupBuffers (s.scheduledBuffers ++ [seg]) currentTime },
   seg)

/-- The duration of a decoded chunk of `n` 16-bit samples: `n / 2` frames at
48 kHz stereo. -/
def chunkDuration (numInt16 : Nat) : ℚ := ((numInt16 : ℚ) / 2) / 48000

/-- `processAudioChunk(pcmData)` abstracted over the decoded buffer's
duration: an early return when uninitialized or stopping, otherwise decode
and schedule.  The Int16→Float32 sample conversion is value-irrelevant to
every claim and is not modelled. -/
def processAudioChunk (s : PlayerState) (bufDuration : ℚ) (currentTime : ℚ) :
    PlayerState :=
  if !s.initialized || s.isStopping then s
  else (scheduleBuffer s bufDuration currentTime).1

/-- `stop(fadeDuration)` = the spec's `beginFadeStop`: block new chunks,
cancel the gain automation at or after `now`, anchor the current gain value
and ramp to zero, and register a new teardown timeout.  The previous
`_stopTimeout` handle is overwritten WITHOUT `clearTimeout`, so an earlier
pending teardown stays live in the host runtime. -/
def stop (s : PlayerState) (fadeDuration : ℚ) (now : ℚ) : PlayerState :=
  if !s.initialized then s
  else
    { s with
      isStopping := true,
      gainEvents := (s.gainEvents.filter fun e => decide (e.time < now)) ++
        [GainEvent.setValue s.gainValue now,
         GainEvent.linearRampTo 0 (now + fadeDuration)],
      liveTimers := s.liveTimers ++ [{ id := s.nextTimerId, fireAt := now + fadeDuration }],
      stopTimeoutHandle := some s.nextTimerId,
      nextTimerId := s.nextTimerId + 1 }

/-- The body of the teardown callback registered by `stop`: force-stop and
release every tracked segment, reset `nextStartTime`, restore gain to 1.0,
and re-enable chunk scheduling. -/
def fadeTeardown (s : PlayerState) (now : ℚ) : PlayerState :=
  { s with
    released := s.released ++ s.scheduledBuffers,
    scheduledBuffers := [],
    nextStartTime := 0,
    gainEvents := if s.initialized then
        (s.gainEvents.filter fun e => decide (e.time < now)) ++ [GainEvent.setValue 1 now]
      else s.gainEvents,
    gainValue := if s.initialized then 1 else s.gainValue,
    isStopping := false }

/-- The host runtime firing a pending teardown timer: the callback runs and
the timer is spent.  A timer absent from `liveTimers` (e.g. cancelled by
`hardStop`) never runs. -/
def fireStopTimer (s : PlayerState) (t : StopTimer) (now : ℚ) : PlayerState :=
  if t ∈ s.liveTimers then
    fadeTeardown { s with liveTimers := s.liveTimers.filter fun x => decide (x.id ≠ t.id) } now
  else s

/-- `hardStop()`: clear the pending teardown timeout (this is the ONLY place
the source calls `clearTimeout`), then perform the teardown immediately. -/
def hardStop (s : PlayerState) (now : ℚ) : PlayerState :=
  let s1 := match s.stopTimeoutHandle with
    | some h => { s with liveTimers := s.liveTimers.filter fun x => decide (x.id ≠ h),
                         stopTimeoutHandle := none }
    | none => s
  { s1 with
    isStopping := false,
    released := s1.released ++ s1.scheduledBuffers,
    scheduledBuffers := [],
    nextStartTime := 0,
    gainEvents := if s1.initialized then
        (s1.gainEvents.filter fun e => decide (e.time < now)) ++ [GainEvent.setValue 1 now]
      else s1.gainEvents,
    gainValue := if s1.initialized then 1 else s1.gainValue }

/-- A freshly initialized, idle player, the concrete base state of
counterexamples and witnesses. -/
def idlePlayer : PlayerState :=
  { initialized := true, isStopping := false, nextStartTime := 0,
    scheduledBuffers := [], gainValue := 1, gainEvents := [],
    stopTimeoutHandle := none, liveTimers := [], nextTimerId := 0, released := [] }

end Player

namespace Midi

/-- A stored mapping value `{channel, cc}`. -/
structure CCMapping where
  channel : Nat
  cc : Nat
deriving DecidableEq, Repr

/-- `this.mappings`, a JS object modelled as an insertion-ordered
association list with distinct keys. -/
abbrev Mappings := List (String × CCMapping)

/-- The `(channel, cc)` pair of an entry. -/
def pairOf (e : String × CCMapping) : Nat × Nat := (e.2.channel, e.2.cc)

/-- JS `delete obj[id]`. -/
def objDelete (m : Mappings) (id : String) : Mappings :=
  m.filter fun e => decide (e.1 ≠ id)

/-- JS `obj[id] = v`: update in place when the key exists (keeping its
position), otherwise append. -/
def objSet (m : Mappings) (id : String) (v : CCMapping) : Mappings :=
  if m.any fun e => decide (e.1 = id) then
    m.map fun e => if e.1 = id then (id, v) else e
  else m ++ [(id, v)]

/-- The `seen` JS `Map` of `loadMappings`, keyed by the `(channel, cc)`
pair.  Only `get`/`has` are observed, so `set` is modelled by prepending
and `get` by first match. -/
def mapGet : List ((Nat × Nat) × String) → (Nat × Nat) → Option String
  | [], _ => none
  | (k, v) :: rest, key => if k = key then some v else mapGet rest key

/-- `assignMapping(sliderId, channel, cc)`: delete every other entry already
using the same CC+channel, then store the new mapping. -/
def assignMapping (mappings : Mappings) (sliderId : String) (channel cc : Nat) :
    Mappings :=
  let pruned := mappings.filter fun e =>
    !(decide (e.2.cc = cc) && decide (e.2.channel = channel) && decide (e.1 ≠ sliderId))
  objSet pruned sliderId { channel := channel, cc := cc }

/-- The `loadMappings` loop over `Object.entries(parsed)`: on a duplicate
`(channel, cc)` pair, delete the entry the `seen` map currently records for
that pair, then record and store the newer one. -/
def loadGo (seen : List ((Nat × Nat) × String)) (acc : Mappings) :
    Mappings → Mappings
  | [] => acc
  | e :: rest =>
    let key := pairOf e
    let acc1 := match mapGet seen key with
      | some old => objDelete acc old
      | none => acc
    loadGo ((key, e.1) :: seen) (objSet acc1 e.1 e.2) rest

/-- `loadMappings(parsed)` (the body after a successful parse). -/
def loadMappings (parsed : Mappings) : Mappings := loadGo [] [] parsed

/-- Follows the spec's words, for comparison with `loadMappings`: keep an
entry exactly when no later entry is assigned the same `(channel, cc)`
pair, i.e. keep only the most recently assigned parameter per pair. -/
def specKeepMostRecent : Mappings → Mappings
  | [] => []
  | e :: rest =>
    (if rest.any fun f => decide (pairOf f = pairOf e) then [] else [e]) ++
      specKeepMostRecent rest

end Midi

namespace Lyria

theorem send_fst_of_open (s : ClientState) (m : OutboundMessage) (h : s.wsOpen = true) :
    send s m = ({ s with sentLog := s.sentLog ++ [m] }, true) := by
  simp [send, h]

theorem send_fst_of_closed (s : ClientState) (m : OutboundMessage) (h : s.wsOpen = false) :
    send s m = ({ s with messageQueue := s.messageQueue ++ [m] }, false) := by
  simp [send, h]

theorem processQueueAux_flush (n : Nat) :
    ∀ s : ClientState, s.wsOpen = true → s.messageQueue.length ≤ n →
      processQueueAux n s =
        { s with messageQueue := [], sentLog := s.sentLog ++ s.messageQueue } := by
  induction n with
  | zero =>
    rintro ⟨ws, ic, ip, isc, mq, cc, cp, sl⟩ hw hl
    have hq : mq = [] := List.length_eq_zero.mp (Nat.le_zero.mp hl)
    subst hq
    simp [processQueueAux]
  | succ n ih =>
    rintro ⟨ws, ic, ip, isc, mq, cc, cp, sl⟩ hw hl
    have hw' : ws = true := hw
    subst hw'
    cases mq with
    | nil => simp [processQueueAux]
    | cons m rest =>
      have hlen : rest.length ≤ n := by simpa using hl
      have hih := ih ⟨true, ic, ip, isc, rest, cc, cp, sl ++ [m]⟩ rfl hlen
      simp only [processQueueAux, send, if_true] at hih ⊢
      simpa [List.append_assoc] using hih

theorem processQueue_flush (s : ClientState) (h : s.wsOpen = true) :
    processQueue s = { s with messageQueue := [], sentLog := s.sentLog ++ s.messageQueue } :=
  processQueueAux_flush s.messageQueue.length s h le_rfl

/-- C2 counterexample: the claim that `send` transmits only when BOTH the
transport is open and the handshake is complete is false — with the socket
open but the handshake not yet complete, `send` transmits immediately and
returns `true` instead of enqueueing. -/
theorem send_transmits_before_handshake :
    ({ readyClient with isSetupComplete := false } : ClientState).isSetupComplete = false ∧
    (send { readyClient with isSetupComplete := false }
        (OutboundMessage.playbackControl "PLAY")).2 = true ∧
    (send { readyClient with isSetupComplete := false }
        (OutboundMessage.playbackControl "PLAY")).1.sentLog =
      [OutboundMessage.playbackControl "PLAY"] ∧
    (send { readyClient with isSetupComplete := false }
        (OutboundMessage.playbackControl "PLAY")).1.messageQueue = [] :=
  ⟨rfl, rfl, rfl, rfl⟩

/-- C2 (amended): `send` transmits immediately if and only if the transport
is open — handshake completion is not consulted; otherwise it enqueues the
message without raising and returns `false`.  Every message enqueued before
the setup-acknowledgement is flushed in original submission order, never
reordered or dropped, when the acknowledgement arrives (on an open
transport). -/
theorem send_iff_open_and_flush_in_order (s : ClientState) (m : OutboundMessage) :
    ((send s m).2 = true ↔ s.wsOpen = true) ∧
    (s.wsOpen = true → send s m = ({ s with sentLog := s.sentLog ++ [m] }, true)) ∧
    (s.wsOpen = false → send s m = ({ s with messageQueue := s.messageQueue ++ [m] }, false)) ∧
    (s.wsOpen = true →
      handleMessage s { setupComplete := some true } =
        ({ s with isSetupComplete := true, messageQueue := [],
                  sentLog := s.sentLog ++ s.messageQueue },
         [Event.stateChange "connected"])) := by
  refine ⟨?_, send_fst_of_open s m, send_fst_of_closed s m, ?_⟩
  · cases hw : s.wsOpen <;> simp [send, hw]
  · intro hw
    have hflush := processQueue_flush { s with isSetupComplete := true } (by simpa using hw)
    simp [handleMessage, hflush]

/-- C2 witness. -/
theorem send_iff_open_and_flush_in_order_witness :
    handleMessage queuedClient { setupComplete := some true } =
      ({ queuedClient with
           isSetupComplete := true,
           messageQueue := [],
           sentLog := [OutboundMessage.playbackControl "PLAY",
                       OutboundMessage.playbackControl "PAUSE"] },
       [Event.stateChange "connected"]) := by
  have h := (send_iff_open_and_flush_in_order queuedClient
    (OutboundMessage.playbackControl "PLAY")).2.2.2 rfl
  simpa [queuedClient, readyClient] using h

/-- C1 counterexample: the claim that every outbound config message contains
the complete current config is false — after `setGenerationConfig({density:
0.73})` then `setGenerationConfig({bpm:140})`, the second outbound message
carries bpm 140 but NO density field. -/
theorem setConfig_second_message_omits_density :
    (setMusicGenerationConfig
        ((setMusicGenerationConfig readyClient { density := some (73/100) }).1)
        { bpm := some 140 }).1.sentLog =
      [OutboundMessage.musicGenerationConfig { density := some (73/100) },
       OutboundMessage.musicGenerationConfig { bpm := some 140 }] ∧
    ({ bpm := some 140 } : ConfigMessage).density = none := by
  constructor
  · simp [setMusicGenerationConfig, send, readyClient, buildConfigMessage,
      jsRound, clamp01, mergeConfig, initialConfig]
    constructor
    · norm_num
    · norm_num [Int.floor_eq_iff]
  · rfl

/-- C1 (amended): `setMusicGenerationConfig` merges the partial update into
the retained full config, but the outbound wire message is built from the
PARTIAL argument only — a field absent from the update is absent from the
message.  In the round-trip, the retained config holds density 0.73 and bpm
140 together after the second call, while the second outbound message
carries only bpm 140. -/
theorem setConfig_merges_config_but_message_has_partial_fields
    (s : ClientState) (config : PartialConfig) :
    (setMusicGenerationConfig s config).1.currentConfig =
      mergeConfig s.currentConfig config ∧
    (buildConfigMessage config).density = config.density.map clamp01 ∧
    (buildConfigMessage config).bpm = config.bpm.map jsRound ∧
    (config.density = none → (buildConfigMessage config).density = none) ∧
    (s.wsOpen = true →
      (setMusicGenerationConfig s config).1.sentLog =
        s.sentLog ++ [OutboundMessage.musicGenerationConfig (buildConfigMessage config)]) ∧
    ((setMusicGenerationConfig
        ((setMusicGenerationConfig readyClient { density := some (73/100) }).1)
        { bpm := some 140 }).1.currentConfig.density = 73/100 ∧
     (setMusicGenerationConfig
        ((setMusicGenerationConfig readyClient { density := some (73/100) }).1)
        { bpm := some 140 }).1.currentConfig.bpm = 140) := by
  refine ⟨?_, rfl, rfl, ?_, ?_, ?_, ?_⟩
  · cases hw : s.wsOpen <;> simp [setMusicGenerationConfig, send, hw]
  · intro h
    simp [buildConfigMessage, h]
  · intro hw
    simp [setMusicGenerationConfig, send, hw]
  · simp [setMusicGenerationConfig, send, readyClient, mergeConfig, initialConfig]
  · simp [setMusicGenerationConfig, send, readyClient, mergeConfig, initialConfig]

/-- C1 witness. -/
theorem setConfig_merges_config_but_message_has_partial_fields_witness :
    (setMusicGenerationConfig readyClient { bpm := some 140 }).1.sentLog =
      [OutboundMessage.musicGenerationConfig (buildConfigMessage { bpm := some 140 })] ∧
    (buildConfigMessage { bpm := some 140 }).density = none := by
  have h := setConfig_merges_config_but_message_has_partial_fields readyClient
    { bpm := some 140 }
  exact ⟨by simpa [readyClient] using h.2.2.2.2.1 rfl, h.2.2.2.1 rfl⟩

/-- C6 counterexample: the claim that ALL payload fields, the
setup-acknowledgement included, are checked independently is false — a
message carrying both `setupComplete` and an audio chunk fires only the
`connected` state change and returns early, never invoking the audio-chunk
callback. -/
theorem handleMessage_setup_ack_skips_other_fields :
    (handleMessage readyClient
        { setupComplete := some true,
          audioChunks := some [{ data := some "QUJD" }],
          generationState := some "PLAYING" }).2 =
      [Event.stateChange "connected"] := rfl

/-- C6 (amended): for a message WITHOUT a setup-acknowledgement, the payload
fields are checked independently and each combination fires every matching
handler — in particular audio chunks plus a PLAYING generation state fire the
audio-chunk callback once per chunk and the state-change callback exactly
once; a message carrying `setupComplete`, however, returns after the setup
handling and skips every other field. -/
theorem handleMessage_fields_independent_without_setup_ack
    (s : ClientState) (m : InboundMessage) (h : m.setupComplete = none) :
    (handleMessage s m).2 =
      chunkEvents m.audioChunks ++ (stateEvents m.generationState s.isPlaying).2 ++
        filteredPromptEvents m.filteredPrompt ++ serverErrorEvents m.errorField ∧
    (handleMessage s
        { audioChunks := some [{ data := some "QUJD" }],
          generationState := some "PLAYING" }).2 =
      [Event.audioChunk "QUJD", Event.stateChange "playing"] ∧
    (m.setupComplete.isSome = false) := by
  refine ⟨?_, rfl, by simp [h]⟩
  simp [handleMessage, h]

/-- C6 witness. -/
theorem handleMessage_fields_independent_without_setup_ack_witness :
    (handleMessage readyClient
        { generationState := some "PAUSED",
          errorField := some (some "boom") }).2 =
      chunkEvents none ++ (stateEvents (some "PAUSED") readyClient.isPlaying).2 ++
        filteredPromptEvents none ++ serverErrorEvents (some (some "boom")) :=
  (handleMessage_fields_independent_without_setup_ack readyClient
    { generationState := some "PAUSED", errorField := some (some "boom") } rfl).1

/-- C9 counterexample: the claim that bpm is clamped to a non-negative
integer is false — a bpm of -10 is sent as the negative integer -10. -/
theorem setConfig_negative_bpm_not_clamped :
    (setMusicGenerationConfig readyClient { bpm := some (-10) }).1.sentLog =
      [OutboundMessage.musicGenerationConfig { bpm := some (-10) }] ∧
    (buildConfigMessage { bpm := some (-10) }).bpm = some (-10) ∧
    (-10 : ℤ) < 0 := by
  refine ⟨?_, ?_, by norm_num⟩
  · simp [setMusicGenerationConfig, send, readyClient, buildConfigMessage,
      jsRound]
    norm_num [Int.floor_eq_iff]
  · simp [buildConfigMessage, jsRound]
    norm_num [Int.floor_eq_iff]

/-- C9 (amended): out-of-range density and brightness are silently clamped
to [0,1]; bpm is rounded to the nearest integer but NOT clamped, so a
negative bpm input yields a negative integer in the outbound message; no
config update surfaces a failure for an out-of-range parameter (the returned
success flag depends only on the transport being open). -/
theorem setConfig_clamps_density_brightness_rounds_bpm
    (s : ClientState) (config : PartialConfig) :
    (∀ d, config.density = some d →
      (buildConfigMessage config).density = some (clamp01 d) ∧
        0 ≤ clamp01 d ∧ clamp01 d ≤ 1) ∧
    (∀ b, config.brightness = some b →
      (buildConfigMessage config).brightness = some (clamp01 b) ∧
        0 ≤ clamp01 b ∧ clamp01 b ≤ 1) ∧
    (∀ q, config.bpm = some q → (buildConfigMessage config).bpm = some (jsRound q)) ∧
    (setMusicGenerationConfig s config).2 = s.wsOpen := by
  refine ⟨?_, ?_, ?_, ?_⟩
  · intro d hd
    exact ⟨by simp [buildConfigMessage, hd], le_max_left _ _,
      max_le (by norm_num) (min_le_left _ _)⟩
  · intro b hb
    exact ⟨by simp [buildConfigMessage, hb], le_max_left _ _,
      max_le (by norm_num) (min_le_left _ _)⟩
  · intro q hq
    simp [buildConfigMessage, hq]
  · cases hw : s.wsOpen <;> simp [setMusicGenerationConfig, send, hw]

/-- C9 witness. -/
theorem setConfig_clamps_density_brightness_rounds_bpm_witness :
    (buildConfigMessage { density := some 2 }).density = some (clamp01 2) ∧
    0 ≤ clamp01 (2 : ℚ) ∧ clamp01 (2 : ℚ) ≤ 1 :=
  (setConfig_clamps_density_brightness_rounds_bpm readyClient
    { density := some 2 }).1 2 rfl

/-- C10: an explicit prompt weight survives only when it is a truthy number:
weight 0 falls back to 1.0 exactly like an absent weight, a nonzero weight
is sent unchanged, and a bare string prompt is sent with weight 1.0. -/
theorem setWeightedPrompts_weight_zero_defaults_to_one
    (s : ClientState) (prompts : List PromptInput) (t : String) (w : ℚ) :
    normalizePrompt (PromptInput.obj t (some 0)) = { text := t, weight := 1 } ∧
    (w ≠ 0 → normalizePrompt (PromptInput.obj t (some w)) = { text := t, weight := w }) ∧
    normalizePrompt (PromptInput.obj t none) = { text := t, weight := 1 } ∧
    normalizePrompt (PromptInput.str t) = { text := t, weight := 1 } ∧
    (s.wsOpen = true →
      (setWeightedPrompts s prompts).1.sentLog =
        s.sentLog ++ [OutboundMessage.clientContent (prompts.map normalizePrompt)]) := by
  refine ⟨by simp [normalizePrompt], ?_, rfl, rfl, ?_⟩
  · intro hw
    simp [normalizePrompt, hw]
  · intro hopen
    simp [setWeightedPrompts, send, hopen]

/-- C10 witness. -/
theorem setWeightedPrompts_weight_zero_defaults_to_one_witness :
    normalizePrompt (PromptInput.obj "djembe" (some (3/4))) =
      { text := "djembe", weight := 3/4 } ∧
    (setWeightedPrompts readyClient [PromptInput.str "djembe"]).1.sentLog =
      readyClient.sentLog ++
        [OutboundMessage.clientContent ([PromptInput.str "djembe"].map normalizePrompt)] := by
  have h := setWeightedPrompts_weight_zero_defaults_to_one readyClient
    [PromptInput.str "djembe"] "djembe" (3/4)
  exact ⟨h.2.1 (by norm_num), h.2.2.2.2 rfl⟩

end Lyria

namespace Player

theorem scheduleBuffer_start_of_no_stall (s : PlayerState) (d now : ℚ)
    (h : ¬ s.nextStartTime < now) :
    (scheduleBuffer s d now).2.startTime = s.nextStartTime := by
  simp [scheduleBuffer, if_neg h]

theorem scheduleBuffer_next_eq_endTime (s : PlayerState) (d now : ℚ) :
    (scheduleBuffer s d now).1.nextStartTime = (scheduleBuffer s d now).2.endTime := rfl

/-- C3: scheduled segments form a contiguous timeline — a segment scheduled
without a stall starts exactly at the retained `nextStartTime` (= the
previous segment's end), so consecutive non-stalled submissions satisfy
segment[i+1].start = segment[i].end; on a stall (`now > nextStartTime`) the
new start is reset to `now + leadIn` (50 ms), hence ≥ `now + leadIn` and
strictly greater than `now`, and `nextStartTime` is then advanced by exactly
the buffer's duration. -/
theorem scheduleBuffer_contiguous_timeline
    (s : PlayerState) (d now d2 now2 : ℚ) :
    (¬ s.nextStartTime < now →
      (scheduleBuffer s d now).2.startTime = s.nextStartTime) ∧
    (s.nextStartTime < now →
      (scheduleBuffer s d now).2.startTime = now + leadIn ∧
      now + leadIn ≤ (scheduleBuffer s d now).2.startTime ∧
      now < (scheduleBuffer s d now).2.startTime ∧
      (scheduleBuffer s d now).1.nextStartTime = (now + leadIn) + d) ∧
    (scheduleBuffer s d now).1.nextStartTime = (scheduleBuffer s d now).2.endTime ∧
    (scheduleBuffer s d now).2.endTime = (scheduleBuffer s d now).2.startTime + d ∧
    (¬ (scheduleBuffer s d now).1.nextStartTime < now2 →
      (scheduleBuffer (scheduleBuffer s d now).1 d2 now2).2.startTime =
        (scheduleBuffer s d now).2.endTime) := by
  refine ⟨scheduleBuffer_start_of_no_stall s d now, ?_, rfl, ?_, ?_⟩
  · intro h
    have hstart : (scheduleBuffer s d now).2.startTime = now + leadIn := by
      simp [scheduleBuffer, if_pos h]
    have hlead : (0:ℚ) < leadIn := by norm_num [leadIn]
    refine ⟨hstart, le_of_eq hstart.symm, by rw [hstart]; linarith, ?_⟩
    simp [scheduleBuffer, if_pos h]
  · simp [scheduleBuffer]
  · intro h
    rw [scheduleBuffer_start_of_no_stall _ d2 now2 h, scheduleBuffer_next_eq_endTime]

/-- C3 witness. -/
theorem scheduleBuffer_contiguous_timeline_witness :
    (scheduleBuffer idlePlayer (1/10) (1/2)).2.startTime = 1/2 + leadIn ∧
    (scheduleBuffer (scheduleBuffer idlePlayer (1/10) (1/2)).1 (1/10) (1/2)).2.startTime =
      (scheduleBuffer idlePlayer (1/10) (1/2)).2.endTime := by
  have h := scheduleBuffer_contiguous_timeline idlePlayer (1/10) (1/2) (1/10) (1/2)
  exact ⟨(h.2.1 (by norm_num [idlePlayer])).1,
    h.2.2.2.2 (by norm_num [scheduleBuffer, idlePlayer, leadIn])⟩

/-- C7: the prune run after every chunk submission is exact with respect to
the clock — `cleanupBuffers` never removes a segment whose end time is still
ahead of `now`, always removes one once `now` has passed its end, and is
exactly the prune `scheduleBuffer` applies to the tracked segments. -/
theorem cleanupBuffers_exact (s : PlayerState) (d now : ℚ)
    (buffers : List Segment) (seg : Segment) :
    (seg ∈ buffers → now < seg.endTime → seg ∈ cleanupBuffers buffers now) ∧
    (seg.endTime < now → seg ∉ cleanupBuffers buffers now) ∧
    (scheduleBuffer s d now).1.scheduledBuffers =
      cleanupBuffers (s.scheduledBuffers ++ [(scheduleBuffer s d now).2]) now := by
  refine ⟨?_, ?_, rfl⟩
  · intro hm hlt
    simp only [cleanupBuffers, List.mem_filter]
    exact ⟨hm, by simp [lt_asymm hlt]⟩
  · intro hlt hmem
    have h2 := (List.mem_filter.mp hmem).2
    simp at h2
    exact absurd hlt (not_lt_of_ge h2)

/-- C7 witness. -/
theorem cleanupBuffers_exact_witness :
    ({ startTime := 1/2, endTime := 3/4 } : Segment) ∈
      cleanupBuffers [{ startTime := 0, endTime := 1/2 },
        { startTime := 1/2, endTime := 3/4 }] (3/5) ∧
    ({ startTime := 0, endTime := 1/2 } : Segment) ∉
      cleanupBuffers [{ startTime := 0, endTime := 1/2 },
        { startTime := 1/2, endTime := 3/4 }] (3/5) := by
  have h1 := cleanupBuffers_exact idlePlayer 0 (3/5)
    [{ startTime := 0, endTime := 1/2 }, { startTime := 1/2, endTime := 3/4 }]
    { startTime := 1/2, endTime := 3/4 }
  have h2 := cleanupBuffers_exact idlePlayer 0 (3/5)
    [{ startTime := 0, endTime := 1/2 }, { startTime := 1/2, endTime := 3/4 }]
    { startTime := 0, endTime := 1/2 }
  exact ⟨h1.1 (by simp) (by norm_num), h2.2.1 (by norm_num)⟩

/-- C4: after `stop` (the spec's `beginFadeStop`) every subsequent chunk
submission is a no-op while `isStopping` holds; the fade's teardown
force-stops and releases every still-tracked segment, resets `nextStartTime`
to zero and restores gain to 1.0, clearing `isStopping` so that chunk
scheduling is accepted again. -/
theorem fadeStop_blocks_chunks_until_teardown
    (s : PlayerState) (f now d t now2 : ℚ) :
    (s.isStopping = true → processAudioChunk s d t = s) ∧
    (s.initialized = true → (stop s f now).isStopping = true) ∧
    (s.initialized = true → processAudioChunk (stop s f now) d t = stop s f now) ∧
    ((fadeTeardown s now2).scheduledBuffers = [] ∧
     (fadeTeardown s now2).nextStartTime = 0 ∧
     (fadeTeardown s now2).released = s.released ++ s.scheduledBuffers ∧
     (fadeTeardown s now2).isStopping = false ∧
     (s.initialized = true → (fadeTeardown s now2).gainValue = 1)) ∧
    (s.initialized = true → s.isStopping = false →
      processAudioChunk s d t = (scheduleBuffer s d t).1) := by
  refine ⟨?_, ?_, ?_, ⟨rfl, rfl, rfl, rfl, ?_⟩, ?_⟩
  · intro h
    simp [processAudioChunk, h]
  · intro h
    simp [stop, h]
  · intro h
    simp [processAudioChunk, stop, h]
  · intro h
    simp [fadeTeardown, h]
  · intro h1 h2
    simp [processAudioChunk, h1, h2]

/-- C4 witness. -/
theorem fadeStop_blocks_chunks_until_teardown_witness :
    processAudioChunk (stop idlePlayer 2 0) (1/10) (1/100) = stop idlePlayer 2 0 ∧
    (fadeTeardown (stop idlePlayer 2 0) 2).isStopping = false :=
  ⟨(fadeStop_blocks_chunks_until_teardown idlePlayer 2 0 (1/10) (1/100) 2).2.2.1 rfl,
   (fadeStop_blocks_chunks_until_teardown (stop idlePlayer 2 0) 2 0 (1/10) (1/100) 2).2.2.2.1.2.2.2.1⟩

/-- C5 counterexample: calling `stop` while an earlier fade is in progress
does NOT cancel the earlier fade's pending teardown timer — after
`stop(2)` at t=0 and `stop(2)` at t=0.5, the first teardown (timer 0, due at
t=2) is still live alongside the new handle (timer 1), and firing it runs
the teardown (clearing `isStopping`) before the new fade completes. -/
theorem stop_keeps_prior_teardown_timer_live :
    ({ id := 0, fireAt := 2 } : StopTimer) ∈ (stop (stop idlePlayer 2 0) 2 (1/2)).liveTimers ∧
    (stop (stop idlePlayer 2 0) 2 (1/2)).stopTimeoutHandle = some 1 ∧
    (fireStopTimer (stop (stop idlePlayer 2 0) 2 (1/2)) { id := 0, fireAt := 2 } 2).isStopping
      = false := by
  refine ⟨?_, ?_, ?_⟩
  · norm_num [stop, idlePlayer]
  · norm_num [stop, idlePlayer]
  · norm_num [stop, idlePlayer, fireStopTimer, fadeTeardown]

/-- C5 (amended): a new `stop` call cancels the previously scheduled gain
ramps (every gain-automation event at or after `now`) before starting the
new fade, but it does NOT cancel the earlier fade's pending teardown timer:
every previously live timer stays live, so the earlier teardown still fires
at its scheduled time.  Only `hardStop` cancels the pending teardown
timeout. -/
theorem stop_cancels_ramps_but_not_timer (s : PlayerState) (f now : ℚ)
    (h : s.initialized = true) :
    (stop s f now).gainEvents =
      (s.gainEvents.filter fun e => decide (e.time < now)) ++
        [GainEvent.setValue s.gainValue now, GainEvent.linearRampTo 0 (now + f)] ∧
    (stop s f now).liveTimers =
      s.liveTimers ++ [{ id := s.nextTimerId, fireAt := now + f }] ∧
    (∀ t ∈ s.liveTimers, t ∈ (stop s f now).liveTimers) ∧
    (∀ h0, s.stopTimeoutHandle = some h0 →
      ∀ t ∈ (hardStop s now).liveTimers, t.id ≠ h0) := by
  refine ⟨by simp [stop, h], by simp [stop, h], ?_, ?_⟩
  · intro t ht
    simp [stop, h]
    exact Or.inl ht
  · intro h0 hh t ht
    simp only [hardStop, hh] at ht
    have := (List.mem_filter.mp ht).2
    simpa using this

/-- C5 witness. -/
theorem stop_cancels_ramps_but_not_timer_witness :
    (stop idlePlayer 2 0).liveTimers =
      idlePlayer.liveTimers ++ [{ id := idlePlayer.nextTimerId, fireAt := 0 + 2 }] :=
  (stop_cancels_ramps_but_not_timer idlePlayer 2 0 rfl).2.1

end Player

namespace Midi

theorem mapGet_cons (seen : List ((Nat × Nat) × String)) (k p : Nat × Nat) (id : String) :
    mapGet ((k, id) :: seen) p = if k = p then some id else mapGet seen p := rfl

theorem objSet_of_forall_ne (l : Mappings) (id : String) (v : CCMapping)
    (h : ∀ e ∈ l, e.1 ≠ id) : objSet l id v = l ++ [(id, v)] := by
  have hany : (l.any fun e => decide (e.1 = id)) = false := by
    rw [List.any_eq_false]
    intro e he
    simp [h e he]
  simp [objSet, hany]

theorem filter_pair_singleton_facts {acc : Mappings} {p : Nat × Nat} {id : String}
    {m : CCMapping}
    (h : acc.filter (fun a => decide (pairOf a = p)) = [(id, m)]) :
    (id, m) ∈ acc ∧ pairOf (id, m) = p ∧ ∀ a ∈ acc, pairOf a = p → a = (id, m) := by
  have hmem : (id, m) ∈ acc.filter (fun a => decide (pairOf a = p)) := by
    rw [h]
    exact List.mem_singleton_self _
  refine ⟨List.mem_of_mem_filter hmem, by simpa using List.of_mem_filter hmem, ?_⟩
  intro a ha hpa
  have hin : a ∈ acc.filter (fun a => decide (pairOf a = p)) :=
    List.mem_filter.mpr ⟨ha, by simp [hpa]⟩
  rw [h] at hin
  simpa using hin

theorem acc1_eq_filter_not_pair (seen : List ((Nat × Nat) × String)) (acc : Mappings)
    (key : Nat × Nat)
    (inv1 : ∀ p id, mapGet seen p = some id →
      ∃ m, acc.filter (fun a => decide (pairOf a = p)) = [(id, m)])
    (inv2 : ∀ a ∈ acc, mapGet seen (pairOf a) ≠ none)
    (hnd : (acc.map Prod.fst).Nodup) :
    (match mapGet seen key with
      | some old => objDelete acc old
      | none => acc) = acc.filter fun a => !decide (pairOf a = key) := by
  cases hg : mapGet seen key with
  | none =>
    symm
    apply List.filter_eq_self.mpr
    intro a ha
    simp only [Bool.not_eq_true', decide_eq_false_iff_not]
    intro hpa
    exact (inv2 a ha) (hpa ▸ hg)
  | some old =>
    obtain ⟨m, hm⟩ := inv1 key old hg
    obtain ⟨hmem, hpair, huniq⟩ := filter_pair_singleton_facts hm
    show objDelete acc old = _
    unfold objDelete
    apply List.filter_congr
    intro a ha
    by_cases hpa : pairOf a = key
    · have ha2 : a = (old, m) := huniq a ha hpa
      subst ha2
      simp [hpair]
    · have hne : a.1 ≠ old := by
        intro h1
        have hinj := List.inj_on_of_nodup_map hnd
        have : a = (old, m) := hinj ha hmem h1
        exact hpa (this ▸ hpair)
      simp [hne, hpa]

theorem loadGo_eq_spec (l : Mappings) :
    ∀ (seen : List ((Nat × Nat) × String)) (acc : Mappings),
    (∀ p id, mapGet seen p = some id →
      ∃ m, acc.filter (fun a => decide (pairOf a = p)) = [(id, m)]) →
    (∀ a ∈ acc, mapGet seen (pairOf a) ≠ none) →
    ((acc.map Prod.fst ++ l.map Prod.fst).Nodup) →
    loadGo seen acc l =
      (acc.filter fun a => !(l.any fun f => decide (pairOf f = pairOf a))) ++
        specKeepMostRecent l := by
  induction l with
  | nil =>
    intro seen acc _ _ _
    simp [loadGo, specKeepMostRecent]
  | cons e rest ih =>
    intro seen acc inv1 inv2 hnd
    have hndparts := List.nodup_append.mp hnd
    have hndacc : (acc.map Prod.fst).Nodup := hndparts.1
    have hdisj : ∀ a ∈ acc, a.1 ≠ e.1 := by
      intro a ha hae
      exact hndparts.2.2 (List.mem_map_of_mem Prod.fst ha)
        (by rw [hae]; simp)
    have hA := acc1_eq_filter_not_pair seen acc (pairOf e) inv1 inv2 hndacc
    have hobj : objSet (acc.filter fun a => !decide (pairOf a = pairOf e)) e.1 e.2 =
        (acc.filter fun a => !decide (pairOf a = pairOf e)) ++ [(e.1, e.2)] := by
      apply objSet_of_forall_ne
      intro a ha
      exact hdisj a (List.mem_of_mem_filter ha)
    have hunfold : loadGo seen acc (e :: rest) =
        loadGo ((pairOf e, e.1) :: seen)
          ((acc.filter fun a => !decide (pairOf a = pairOf e)) ++ [e]) rest := by
      show loadGo ((pairOf e, e.1) :: seen)
          (objSet (match mapGet seen (pairOf e) with
            | some old => objDelete acc old
            | none => acc) e.1 e.2) rest = _
      rw [hA, hobj]
    have inv1' : ∀ p id, mapGet ((pairOf e, e.1) :: seen) p = some id →
        ∃ m, ((acc.filter fun a => !decide (pairOf a = pairOf e)) ++ [e]).filter
          (fun a => decide (pairOf a = p)) = [(id, m)] := by
      intro p id hg
      rw [mapGet_cons] at hg
      by_cases hp : pairOf e = p
      · rw [if_pos hp] at hg
        have hid : id = e.1 := (Option.some_inj.mp hg).symm
        refine ⟨e.2, ?_⟩
        rw [List.filter_append, List.filter_filter]
        have h1 : acc.filter (fun a =>
            decide (pairOf a = p) && !decide (pairOf a = pairOf e)) = [] := by
          apply List.filter_eq_nil_iff.mpr
          intro a _
          by_cases hpa : pairOf a = p
          · simp [hp, hpa]
          · simp [hpa]
        have h2 : List.filter (fun a => decide (pairOf a = p)) [e] = [e] := by
          simp [List.filter_cons, hp]
        rw [h1, h2]
        simp [hid]
      · rw [if_neg hp] at hg
        obtain ⟨m, hm⟩ := inv1 p id hg
        refine ⟨m, ?_⟩
        rw [List.filter_append, List.filter_filter]
        have h1 : acc.filter (fun a =>
            decide (pairOf a = p) && !decide (pairOf a = pairOf e)) =
            acc.filter (fun a => decide (pairOf a = p)) := by
          apply List.filter_congr
          intro a _
          by_cases hpa : pairOf a = p
          · simp [hpa]
            exact fun hh => hp hh.symm
          · simp [hpa]
        have h2 : List.filter (fun a => decide (pairOf a = p)) [e] = [] := by
          simp [List.filter_cons, hp]
        rw [h1, h2, hm, List.append_nil]
    have inv2' : ∀ a ∈ (acc.filter fun a => !decide (pairOf a = pairOf e)) ++ [e],
        mapGet ((pairOf e, e.1) :: seen) (pairOf a) ≠ none := by
      intro a ha
      rw [mapGet_cons]
      by_cases hpa : pairOf e = pairOf a
      · simp [if_pos hpa]
      · rw [if_neg hpa]
        rcases List.mem_append.mp ha with h | h
        · exact inv2 a (List.mem_of_mem_filter h)
        · exact absurd (by rw [List.mem_singleton.mp h]) hpa
    have hnd' : (((acc.filter fun a => !decide (pairOf a = pairOf e)) ++ [e]).map Prod.fst
        ++ rest.map Prod.fst).Nodup := by
      have hsub : List.Sublist
          ((acc.filter fun a => !decide (pairOf a = pairOf e)).map Prod.fst)
          (acc.map Prod.fst) :=
        (List.filter_sublist acc).map Prod.fst
      have hsub2 : List.Sublist
          (((acc.filter fun a => !decide (pairOf a = pairOf e)).map Prod.fst) ++
            (e.1 :: rest.map Prod.fst))
          ((acc.map Prod.fst) ++ (e.1 :: rest.map Prod.fst)) :=
        hsub.append_right _
      have := hnd.sublist hsub2
      simpa [List.append_assoc] using this
    have hih := ih ((pairOf e, e.1) :: seen)
      ((acc.filter fun a => !decide (pairOf a = pairOf e)) ++ [e]) inv1' inv2' hnd'
    rw [hunfold, hih]
    rw [List.filter_append, List.filter_filter]
    have hpred : acc.filter (fun a =>
        (!(rest.any fun f => decide (pairOf f = pairOf a))) &&
          !decide (pairOf a = pairOf e)) =
        acc.filter (fun a => !((e :: rest).any fun f => decide (pairOf f = pairOf a))) := by
      apply List.filter_congr
      intro a _
      by_cases hpa : pairOf a = pairOf e
      · simp [hpa, List.any_cons]
      · have hpa' : ¬ pairOf e = pairOf a := fun hh => hpa hh.symm
        simp [hpa, hpa', List.any_cons]
    have hsingle : List.filter (fun a => !(rest.any fun f => decide (pairOf f = pairOf a))) [e] =
        if rest.any (fun f => decide (pairOf f = pairOf e)) then [] else [e] := by
      by_cases hc : (rest.any fun f => decide (pairOf f = pairOf e)) = true
      · simp [List.filter_cons, hc]
      · simp [List.filter_cons, hc]
    rw [hpred, hsingle]
    show _ = _ ++ ((if rest.any (fun f => decide (pairOf f = pairOf e)) then [] else [e]) ++
      specKeepMostRecent rest)
    rw [List.append_assoc]

theorem specKeepMostRecent_sublist (l : Mappings) :
    List.Sublist (specKeepMostRecent l) l := by
  induction l with
  | nil => simp [specKeepMostRecent]
  | cons e rest ih =>
    by_cases hc : (rest.any fun f => decide (pairOf f = pairOf e)) = true
    · simpa [specKeepMostRecent, hc] using ih.cons e
    · simpa [specKeepMostRecent, hc] using ih.cons₂ e

theorem specKeepMostRecent_pairwise (l : Mappings) :
    (specKeepMostRecent l).Pairwise fun a b => pairOf a ≠ pairOf b := by
  induction l with
  | nil => simp [specKeepMostRecent]
  | cons e rest ih =>
    by_cases hc : (rest.any fun f => decide (pairOf f = pairOf e)) = true
    · simpa [specKeepMostRecent, hc] using ih
    · have hgoal : (e :: specKeepMostRecent rest).Pairwise
          fun a b => pairOf a ≠ pairOf b := by
        refine List.Pairwise.cons ?_ ih
        intro b hb heq
        have hbrest : b ∈ rest := (specKeepMostRecent_sublist rest).subset hb
        exact hc (List.any_eq_true.mpr ⟨b, hbrest, by simp [heq]⟩)
      simpa [specKeepMostRecent, hc] using hgoal

theorem filter_id_singleton (l : Mappings) (id : String)
    (hnd : (l.map Prod.fst).Nodup)
    (hany : (l.any fun e => decide (e.1 = id)) = true) :
    ∃ e0, l.filter (fun e => decide (e.1 = id)) = [e0] ∧ e0.1 = id := by
  induction l with
  | nil => simp at hany
  | cons e rest ih =>
    rw [List.map_cons, List.nodup_cons] at hnd
    by_cases he : e.1 = id
    · refine ⟨e, ?_, he⟩
      have hrest : rest.filter (fun e => decide (e.1 = id)) = [] := by
        apply List.filter_eq_nil_iff.mpr
        intro a ha
        simp only [decide_eq_true_eq]
        intro haid
        exact hnd.1 (by rw [he, ← haid]; exact List.mem_map_of_mem Prod.fst ha)
      simp [List.filter_cons, he, hrest]
    · have hany2 : (rest.any fun e => decide (e.1 = id)) = true := by
        rcases List.any_eq_true.mp hany with ⟨a, ha, hpa⟩
        rcases List.mem_cons.mp ha with h | h
        · rw [h] at hpa
          exact absurd (of_decide_eq_true hpa) he
        · exact List.any_eq_true.mpr ⟨a, h, hpa⟩
      obtain ⟨e0, h1, h2⟩ := ih hnd.2 hany2
      exact ⟨e0, by simp [List.filter_cons, he, h1], h2⟩

theorem objSet_filter_pair (l : Mappings) (id : String) (v : CCMapping)
    (hnd : (l.map Prod.fst).Nodup)
    (h : ∀ e ∈ l, pairOf e = (v.channel, v.cc) → e.1 = id) :
    (objSet l id v).filter (fun e => decide (pairOf e = (v.channel, v.cc))) = [(id, v)] := by
  by_cases hany : (l.any fun e => decide (e.1 = id)) = true
  · rw [objSet, if_pos hany, List.filter_map]
    have hcong : l.filter ((fun e => decide (pairOf e = (v.channel, v.cc))) ∘
        (fun e => if e.1 = id then (id, v) else e)) =
        l.filter (fun e => decide (e.1 = id)) := by
      apply List.filter_congr
      intro a ha
      by_cases haid : a.1 = id
      · simp [Function.comp, haid, pairOf]
      · have hap : ¬ pairOf a = (v.channel, v.cc) := fun hp => haid (h a ha hp)
        simp [Function.comp, haid, hap]
    rw [hcong]
    obtain ⟨e0, h1, h2⟩ := filter_id_singleton l id hnd hany
    rw [h1]
    simp [h2]
  · rw [objSet, if_neg hany, List.filter_append]
    have h1 : l.filter (fun e => decide (pairOf e = (v.channel, v.cc))) = [] := by
      apply List.filter_eq_nil_iff.mpr
      intro a ha
      simp only [decide_eq_true_eq]
      intro hp
      exact hany (List.any_eq_true.mpr ⟨a, ha, by simp [h a ha hp]⟩)
    rw [h1]
    simp [pairOf]

theorem assignMapping_unique_pair (mappings : Mappings) (sliderId : String)
    (channel cc : Nat) (hm : (mappings.map Prod.fst).Nodup) :
    (assignMapping mappings sliderId channel cc).filter
        (fun e => decide (pairOf e = (channel, cc))) =
      [(sliderId, { channel := channel, cc := cc })] := by
  simp only [assignMapping]
  refine objSet_filter_pair _ sliderId ⟨channel, cc⟩ ?_ ?_
  · exact hm.sublist ((List.filter_sublist mappings).map Prod.fst)
  · intro e he hp
    have hq := List.of_mem_filter he
    have hch : e.2.channel = channel := congrArg Prod.fst hp
    have hcc : e.2.cc = cc := congrArg Prod.snd hp
    by_contra hne
    simp [hch, hcc, hne] at hq

/-- C8: the `(channel, cc)` to parameter mapping is kept unique — loading a
stored mapping set whose entries contain duplicate `(channel, cc)` pairs
keeps only the most recently assigned key and deletes the older entries
(`loadMappings` coincides with the spec's keep-most-recent policy and its
result has pairwise-distinct pairs), and assigning a mapping at runtime
deletes any other parameter already mapped to the same pair, leaving exactly
the new entry on that pair. -/
theorem midi_mapping_unique_per_cc (parsed mappings : Mappings)
    (sliderId : String) (channel cc : Nat)
    (hp : (parsed.map Prod.fst).Nodup) (hm : (mappings.map Prod.fst).Nodup) :
    loadMappings parsed = specKeepMostRecent parsed ∧
    (loadMappings parsed).Pairwise (fun a b => pairOf a ≠ pairOf b) ∧
    (assignMapping mappings sliderId channel cc).filter
        (fun e => decide (pairOf e = (channel, cc))) =
      [(sliderId, { channel := channel, cc := cc })] ∧
    loadMappings [("knob1", { channel := 1, cc := 20 }),
        ("knob2", { channel := 1, cc := 20 })] =
      [("knob2", { channel := 1, cc := 20 })] := by
  have hload : loadMappings parsed = specKeepMostRecent parsed := by
    unfold loadMappings
    rw [loadGo_eq_spec parsed [] []
      (by intro p id hg; simp [mapGet] at hg)
      (by simp)
      (by simpa using hp)]
    simp
  refine ⟨hload, ?_, assignMapping_unique_pair mappings sliderId channel cc hm, ?_⟩
  · rw [hload]
    exact specKeepMostRecent_pairwise parsed
  · rfl

/-- C8 witness. -/
theorem midi_mapping_unique_per_cc_witness :
    loadMappings [("a", { channel := 1, cc := 20 }), ("b", { channel := 1, cc := 20 })] =
      specKeepMostRecent [("a", { channel := 1, cc := 20 }),
        ("b", { channel := 1, cc := 20 })] ∧
    (assignMapping [("x", { channel := 2, cc := 30 })] "y" 2 30).filter
        (fun e => decide (pairOf e = (2, 30))) =
      [("y", { channel := 2, cc := 30 })] := by
  have h := midi_mapping_unique_per_cc
    [("a", { channel := 1, cc := 20 }), ("b", { channel := 1, cc := 20 })]
    [("x", { channel := 2, cc := 30 })] "y" 2 30 (by simp) (by simp)
  exact ⟨h.1, h.2.2.1⟩

end Midi
